import Mathlib

/-
  Verification of the DriftGuard session/scope coordination engine
  (mcp-server-driftguard).  The TypeScript sources are embedded shallowly:
  pure functions become Lean functions, the mutable StateManager singleton
  becomes explicit state passing over `DriftGuardState`, thrown exceptions
  become `Except DGError`, and external collaborators (the minimatch glob
  matcher, the git adapter, the filesystem hashing step, clocks and id
  generators) are passed in as explicit parameters.
-/

namespace DriftGuard

/-- Focus states of the session state machine (types.ts `FocusState`). -/
inductive FocusState where
  | IDLE
  | PLANNING
  | EXECUTING
  | VALIDATING
  | PANIC
deriving DecidableEq, Repr

/-- Status of a checklist item (types.ts `ChecklistItem.status`). -/
inductive ItemStatus where
  | todo
  | done
deriving DecidableEq, Repr

/-- A checklist item within a task (types.ts `ChecklistItem`). -/
structure ChecklistItem where
  id : String
  text : String
  status : ItemStatus
deriving DecidableEq, Repr

/-- A scope claim: a glob-pattern lock owned by a task (types.ts `ScopeClaim`). -/
structure ScopeClaim where
  path : String
  exclusive : Bool
  ownerTaskId : String
  createdAt : Nat
deriving DecidableEq, Repr

/-- A task contract (types.ts `TaskContract`).  Optional TS fields are
`Option`s so that the `|| []` / `?? x` idioms of the source are mirrored
exactly. Strictness levels are the ordinals 1-5. -/
structure TaskContract where
  taskId : String
  title : String
  goal : String
  allowedScopes : List String
  checklist : List ChecklistItem
  strictness : Nat
  testCommand : Option String := none
  lastIntent : Option String := none
  filesToTouch : Option (List String) := none
  parentTaskId : Option String := none
  subTaskIds : Option (List String) := none
  claims : Option (List ScopeClaim) := none
  riskScore : Option Nat := none
  createdAt : String
  updatedAt : String
deriving DecidableEq, Repr

/-- A log entry of the bounded session log (types.ts `LogEntry`). -/
structure LogEntry where
  timestamp : String
  action : String
  taskId : Option String := none
  details : Option String := none
deriving DecidableEq, Repr

/-- The session record (types.ts `DriftSession`, Phase 3/4 fields included). -/
structure DriftSession where
  sessionId : String
  startTime : Nat
  currentState : FocusState
  activeTaskId : Option String := none
  activeStepId : Option String := none
  isVerified : Bool
  intentFiled : Bool
  activeClaims : Option (List ScopeClaim) := none
  lastKnownFileHashes : Option (List (String × String)) := none
deriving DecidableEq, Repr

/-- The complete engine state (types.ts `DriftGuardState`).  The TS
`Record<string, TaskContract>` task map is an insertion-ordered
association list, matching JS object key order. -/
structure DriftGuardState where
  version : String
  session : DriftSession
  tasks : List (String × TaskContract)
  logs : List LogEntry
deriving DecidableEq, Repr

/-- Lookup of `tasks[id]` on the association-list task map. -/
def lookupTask (tasks : List (String × TaskContract)) (id : String) :
    Option TaskContract :=
  (tasks.find? (fun e => e.1 == id)).map (fun e => e.2)

/-- `tasks[id] = t` on the association-list task map: replace in place if
the key exists (JS objects keep the original key position), else append. -/
def upsertTask (tasks : List (String × TaskContract)) (id : String)
    (t : TaskContract) : List (String × TaskContract) :=
  if (lookupTask tasks id).isSome then
    tasks.map (fun e => if e.1 == id then (id, t) else e)
  else
    tasks ++ [(id, t)]

/-- Lookup on a `Record<string, string>` hash map (association list). -/
def recordLookup (r : List (String × String)) (k : String) : Option String :=
  (r.find? (fun e => e.1 == k)).map (fun e => e.2)

/-- JS object spread `{...a, ...b}`: keys of `a` in order with values
overridden by `b` where present, then the keys of `b` new to `a`. -/
def recordMerge (a b : List (String × String)) : List (String × String) :=
  a.map (fun e =>
    match recordLookup b e.1 with
    | some v => (e.1, v)
    | none => e) ++
  b.filter (fun e => (recordLookup a e.1).isNone)

/-! ### Scope Coordinator (scope.ts `ScopeManager`)

The external `minimatch` matcher is abstracted as a parameter
`mm : String → String → Bool`, where `mm text pattern` models
`minimatch(text, pattern)`. -/

/-- scope.ts `checkOverlap`: the bidirectional containment test.  Two glob
patterns overlap when they are equal, or either pattern applied as a
matcher accepts the other pattern's literal text. -/
def checkOverlap (mm : String → String → Bool) (pathA pathB : String) : Bool :=
  if pathA == pathB then true
  else if mm pathA pathB then true
  else if mm pathB pathA then true
  else false

/-- scope.ts `checkConflict`: walk the active claims; skip claims owned by
the requestor itself and claims owned by the requestor's parent task; for
the remaining claims, any overlap returns that claim (the source returns
the claim both in its `claim.exclusive` branch and in the fall-through
branch right below it, which is transliterated verbatim here). -/
def checkConflict (mm : String → String → Bool)
    (requestedPath requestorTaskId : String)
    (activeClaims : List ScopeClaim)
    (tasks : List (String × TaskContract)) : Option ScopeClaim :=
  match activeClaims with
  | [] => none
  | claim :: rest =>
    if claim.ownerTaskId == requestorTaskId then
      checkConflict mm requestedPath requestorTaskId rest tasks
    else if (match lookupTask tasks requestorTaskId with
             | some requestorTask =>
                 requestorTask.parentTaskId == some claim.ownerTaskId
             | none => false) then
      checkConflict mm requestedPath requestorTaskId rest tasks
    else if checkOverlap mm requestedPath claim.path then
      (if claim.exclusive then some claim else some claim)
    else
      checkConflict mm requestedPath requestorTaskId rest tasks

/-- The predicate selecting the claims `checkConflict` does not skip and
which overlap the requested path.  Note it does not read `exclusive`. -/
def conflictsWith (mm : String → String → Bool)
    (requestedPath requestorTaskId : String)
    (tasks : List (String × TaskContract)) (claim : ScopeClaim) : Bool :=
  !(claim.ownerTaskId == requestorTaskId) &&
  !(match lookupTask tasks requestorTaskId with
    | some requestorTask => requestorTask.parentTaskId == some claim.ownerTaskId
    | none => false) &&
  checkOverlap mm requestedPath claim.path

/-- scope.ts `validateDelegation` inner loop: a child path is covered when
some parent pattern matches it or equals it. -/
def coveredBy (mm : String → String → Bool) (childPath : String)
    (parentScope : List String) : Bool :=
  parentScope.any (fun parentPath => mm childPath parentPath || childPath == parentPath)

/-- scope.ts `validateDelegation`: every pattern in `childScope` must be
covered by at least one pattern in `parentScope`. -/
def validateDelegation (mm : String → String → Bool)
    (parentScope childScope : List String) : Bool :=
  childScope.all (fun childPath => coveredBy mm childPath parentScope)

/-! ### Risk Scorer (risk.ts `RiskAnalyzer`)

The git adapter is external: `isGitRepo` is its repo-detection answer and
`gitLogEmails` models the `git.log` call restricted to the target path in
the trailing 30 days with `--max-count 100` — `none` when the call throws,
`some emails` with one author email per returned entry otherwise. -/

/-- JS `s.includes(sub)`: substring containment. -/
def containsSub (s sub : String) : Bool :=
  (List.range (s.length + 1)).any (fun i => sub.toList.isPrefixOf (s.toList.drop i))

/-- JS `toLowerCase()` on a path, as a structural map over the character
list (ASCII case mapping). -/
def toLowerStr (s : String) : String := String.mk (s.toList.map Char.toLower)

/-- risk.ts: the path heuristically names a test/spec file when its
lower-cased text contains "test" or "spec". -/
def isTestPath (targetPath : String) : Bool :=
  containsSub (toLowerStr targetPath) "test" || containsSub (toLowerStr targetPath) "spec"

/-- risk.ts `calculateRisk`: 2 points per commit, 5 per distinct author,
minus 20 (floored at 0) for test/spec paths, capped at 100 — the deduction
is applied before the cap, as in the source.  Non-repository targets and
git errors yield score 0 with an explanatory reason. -/
def calculateRisk (isGitRepo : Bool) (gitLogEmails : Option (List String))
    (targetPath : String) : Nat × String :=
  if !isGitRepo then (0, "Not a git repository")
  else
    match gitLogEmails with
    | none => (0, "Error accessing git logs")
    | some emails =>
      let commitCount := emails.length
      let authors := emails.dedup.length
      let score0 := commitCount * 2 + authors * 5
      let score1 := if isTestPath targetPath then score0 - 20 else score0
      let score := min 100 score1
      let reason :=
        if score > 70 then
          "🔥 CRITICAL HOTSPOT: " ++ toString commitCount ++ " commits, " ++
            toString authors ++ " authors"
        else if score > 40 then "⚠️ High activity: " ++ toString commitCount ++ " commits"
        else if score > 20 then "Moderate activity"
        else "Low activity (" ++ toString commitCount ++ " commits)"
      (score, reason)

/-- The risk formula exactly as the specification words it, for comparison
with the source's `calculateRisk`: "score = min(100, 2c + 5a); if the
path's name heuristically indicates a test/spec file, subtract 20 (floored
at 0)" — i.e. the cap is applied before the deduction. -/
def specRiskFormula (c a : Nat) (isTest : Bool) : Nat :=
  if isTest then min 100 (2 * c + 5 * a) - 20 else min 100 (2 * c + 5 * a)

/-! ### Session State Machine and Task Registry (state.ts `StateManager`)

Thrown exceptions become `Except DGError`; the uuid generator, clock and
external collaborators are explicit parameters.  Every operation is a
function from `DriftGuardState` to a result paired with the new state. -/

/-- The error taxonomy of types.ts: `StateTransitionError`,
`IntentMissingError`, and plain `Error(msg)` throws. -/
inductive DGError where
  | stateTransition (action : String) (fromState : FocusState)
      (allowedFromStates : List FocusState)
  | intentMissing
  | generic (msg : String)
deriving DecidableEq, Repr

/-- state.ts `validateTransition`: fails with a `StateTransitionError`
when the current state is not in the allowed set, otherwise a no-op. -/
def validateTransition (action : String) (allowedFrom : List FocusState)
    (st : DriftGuardState) : Except DGError Unit :=
  if st.session.currentState ∈ allowedFrom then Except.ok ()
  else Except.error (.stateTransition action st.session.currentState allowedFrom)

/-- state.ts `log` body on the log list: push the entry, then keep only
the last 100 entries (`slice(-100)`). -/
def appendLog (logs : List LogEntry) (e : LogEntry) : List LogEntry :=
  let pushed := logs ++ [e]
  if pushed.length > 100 then pushed.drop (pushed.length - 100) else pushed

/-- state.ts `log`: append a bounded log entry to the state. -/
def logAction (st : DriftGuardState) (ts action : String)
    (taskId : Option String) (details : Option String) : DriftGuardState :=
  { st with logs := appendLog st.logs ⟨ts, action, taskId, details⟩ }

/-- state.ts `createInitialState`. -/
def createInitialState (sessionId : String) (startTime : Nat) : DriftGuardState :=
  { version := "3.0.0"
    session :=
      { sessionId := sessionId
        startTime := startTime
        currentState := .IDLE
        isVerified := false
        intentFiled := false
        activeClaims := some []
        lastKnownFileHashes := some [] }
    tasks := []
    logs := [] }

/-- state.ts `refreshActiveClaims` inner collection: all tasks' claim
lists flattened in task-map order. -/
def collectClaims (tasks : List (String × TaskContract)) : List ScopeClaim :=
  tasks.foldl (fun acc e => acc ++ e.2.claims.getD []) []

/-- state.ts `refreshActiveClaims`: rebuild the session's active-claim
cache from all tasks' claim lists. -/
def refreshActiveClaims (st : DriftGuardState) : DriftGuardState :=
  { st with session := { st.session with activeClaims := some (collectClaims st.tasks) } }

/-- state.ts `calculateFileHashes`: empty pattern list short-circuits to
an empty map; otherwise the git file listing, content read and md5 are
external, modelled by the `hashOracle` parameter. -/
def calculateFileHashes (hashOracle : List String → List (String × String))
    (patterns : List String) : List (String × String) :=
  if patterns.isEmpty then [] else hashOracle patterns

/-- state.ts `proposeTask`: requires IDLE; registers a task whose
checklist items are all `todo`, strictness defaulting to 2; sets it
active and logs.  (The source never writes `currentState` here.) -/
def proposeTask (newTaskId now : String) (title goal : String)
    (allowedScopes : List String) (checklist : List (String × String))
    (strictness : Option Nat) (st : DriftGuardState) :
    Except DGError (TaskContract × DriftGuardState) :=
  match validateTransition "dg_propose_task" [.IDLE] st with
  | .error e => .error e
  | .ok _ =>
    let newTask : TaskContract :=
      { taskId := newTaskId
        title := title
        goal := goal
        allowedScopes := allowedScopes
        checklist := checklist.map (fun item => ⟨item.1, item.2, .todo⟩)
        strictness := strictness.getD 2
        createdAt := now
        updatedAt := now
        subTaskIds := some []
        claims := some [] }
    let st1 := { st with
      tasks := upsertTask st.tasks newTaskId newTask
      session := { st.session with activeTaskId := some newTaskId } }
    let st2 := logAction st1 now "dg_propose_task" (some newTaskId)
      (some ("Task proposed: " ++ title))
    .ok (newTask, st2)

/-- state.ts `beginStep`: requires PLANNING or IDLE and an active task;
sets the step id and moves to EXECUTING. -/
def beginStep (genId now : String) (stepId : Option String)
    (st : DriftGuardState) :
    Except DGError ((String × String × FocusState) × DriftGuardState) :=
  match validateTransition "dg_begin_step" [.PLANNING, .IDLE] st with
  | .error e => .error e
  | .ok _ =>
    match st.session.activeTaskId with
    | none => .error (.generic "No active task. Use dg_propose_task first.")
    | some taskId =>
      let activeStepId := stepId.getD genId
      let st1 := { st with session := { st.session with
        activeStepId := some activeStepId
        currentState := .EXECUTING } }
      let st2 := logAction st1 now "dg_begin_step" (some taskId)
        (some ("Started step: " ++ activeStepId))
      .ok ((taskId, activeStepId, .EXECUTING), st2)

/-- state.ts `reportIntent`: requires PLANNING or IDLE and an active task;
stores intent and files on the task, moves to EXECUTING, sets
`intentFiled`. -/
def reportIntent (genId now : String) (intent : String)
    (filesToTouch : List String) (st : DriftGuardState) :
    Except DGError ((String × String × FocusState) × DriftGuardState) :=
  match validateTransition "dg_report_intent" [.PLANNING, .IDLE] st with
  | .error e => .error e
  | .ok _ =>
    match st.session.activeTaskId with
    | none => .error (.generic "No active task. Use dg_propose_task first.")
    | some taskId =>
      match lookupTask st.tasks taskId with
      | none => .error (.generic "TypeError: no task for active task id")
      | some task =>
        let task1 := { task with
          lastIntent := some intent
          filesToTouch := some filesToTouch
          updatedAt := now }
        let st1 := { st with
          tasks := upsertTask st.tasks taskId task1
          session := { st.session with
            activeStepId := some genId
            currentState := .EXECUTING
            intentFiled := true } }
        let st2 := logAction st1 now "dg_report_intent" (some taskId)
          (some (intent.take 100))
        .ok ((taskId, genId, .EXECUTING), st2)

/-- External git collaborator answers consumed by `checkpoint` and
`explainChange`. -/
structure GitEnv where
  isGitRepo : Bool
  changedFiles : List String
  diffStat : String
  noteWriteOk : Bool
deriving DecidableEq, Repr

/-- Result of `checkpoint` (types.ts `CheckpointResult`). -/
structure CheckpointResult where
  taskId : String
  completedItems : Nat
  totalItems : Nat
  gitNoteWritten : Bool
deriving DecidableEq, Repr

/-- state.ts `checkpoint` checklist update: `find` the first item with the
given id and mark it done. -/
def markDone (checklist : List ChecklistItem) (id : String) : List ChecklistItem :=
  match checklist with
  | [] => []
  | item :: rest =>
    if item.id == id then { item with status := .done } :: rest
    else item :: markDone rest id

/-- state.ts `checkpoint` checklist update folded over all completed ids. -/
def markAllDone (checklist : List ChecklistItem) (ids : List String) :
    List ChecklistItem :=
  ids.foldl markDone checklist

/-- state.ts `checkpoint`: requires EXECUTING (checked first), then
`intentFiled` (else `IntentMissingError`), then an active task; marks
checklist ids done, snapshots hashes of the task's claim patterns into the
cache, releases the task's claims, refreshes the claim cache, returns to
IDLE clearing flags, and clears the active task when everything is done. -/
def checkpoint (git : GitEnv)
    (hashOracle : List String → List (String × String)) (now : String)
    (summary : String) (completedChecklistIds : List String)
    (st : DriftGuardState) :
    Except DGError (CheckpointResult × DriftGuardState) :=
  match validateTransition "dg_checkpoint" [.EXECUTING] st with
  | .error e => .error e
  | .ok _ =>
    if !st.session.intentFiled then .error .intentMissing
    else
      match st.session.activeTaskId with
      | none => .error (.generic "No active task found")
      | some taskId =>
        match lookupTask st.tasks taskId with
        | none => .error (.generic "No active task found")
        | some task =>
          let checklist1 := markAllDone task.checklist completedChecklistIds
          let allDone := checklist1.all (fun i => i.status == .done)
          let gitNoteWritten :=
            git.isGitRepo && !git.changedFiles.isEmpty && git.noteWriteOk
          let result : CheckpointResult :=
            { taskId := taskId
              completedItems := (checklist1.filter (fun i => i.status == .done)).length
              totalItems := checklist1.length
              gitNoteWritten := gitNoteWritten }
          let task1 := { task with checklist := checklist1, updatedAt := now }
          let st1 := { st with tasks := upsertTask st.tasks taskId task1 }
          let st2 :=
            match task1.claims with
            | some cs =>
              { st1 with session := { st1.session with
                  lastKnownFileHashes := some (recordMerge
                    (st1.session.lastKnownFileHashes.getD [])
                    (calculateFileHashes hashOracle
                      (cs.map (fun (c : ScopeClaim) => c.path)))) } }
            | none => st1
          let st3 :=
            match task1.claims with
            | some _ =>
              refreshActiveClaims
                { st2 with tasks := (upsertTask st2.tasks taskId
                    { task1 with claims := some [] }) }
            | none => st2
          let st4 := { st3 with session := { st3.session with
            currentState := .IDLE
            activeStepId := none
            intentFiled := false
            isVerified := false
            activeTaskId := if allDone then none else st3.session.activeTaskId } }
          let st5 := logAction st4 now "dg_checkpoint" (some taskId) (some summary)
          .ok (result, st5)

/-- Help packet returned by `panic` (types.ts `HelpPacket`). -/
structure HelpPacket where
  currentTaskGoal : Option String
  lastLogs : List LogEntry
  panicReason : String
  currentState : FocusState
deriving DecidableEq, Repr

/-- state.ts `panic`: no transition validation — force PANIC from any
state, log, and return the help packet (goal, last 3 log entries after
logging, reason, resulting state). -/
def panicOp (now : String) (reason : String) (st : DriftGuardState) :
    HelpPacket × DriftGuardState :=
  let taskId := st.session.activeTaskId
  let task := taskId.bind (fun id => lookupTask st.tasks id)
  let st1 := { st with session := { st.session with currentState := .PANIC } }
  let st2 := logAction st1 now "dg_panic" taskId (some reason)
  ({ currentTaskGoal := task.map (fun t => t.goal)
     lastLogs := st2.logs.drop (st2.logs.length - 3)
     panicReason := reason
     currentState := .PANIC }, st2)

/-- Result of `verify` (types.ts `VerifyResult`, stdout/stderr elided as
external process output). -/
structure VerifyResult where
  success : Bool
  command : String
deriving DecidableEq, Repr

/-- state.ts `verify`: requires EXECUTING and an active task; the command
execution is external (`cmdSuccess`); sets `isVerified` and logs; command
failure is data, never an error. -/
def verify (cmdSuccess : Bool) (now : String) (st : DriftGuardState) :
    Except DGError (VerifyResult × DriftGuardState) :=
  match validateTransition "dg_verify" [.EXECUTING] st with
  | .error e => .error e
  | .ok _ =>
    match st.session.activeTaskId with
    | none => .error (.generic "No active task found")
    | some taskId =>
      match lookupTask st.tasks taskId with
      | none => .error (.generic "No active task found")
      | some task =>
        let command := task.testCommand.getD "echo \"No test command configured\""
        let st1 := { st with session := { st.session with isVerified := cmdSuccess } }
        let st2 := logAction st1 now "dg_verify" (some taskId)
          (some (if cmdSuccess then "PASS" else "FAIL"))
        .ok ({ success := cmdSuccess, command := command }, st2)

/-- Result of `explainChange` (types.ts `ExplainResult`). -/
structure ExplainResult where
  intent : String
  changes : String
  verification : String
  diffSummary : String
deriving DecidableEq, Repr

/-- state.ts `explainChange`: requires EXECUTING and an active task;
composes the intent/changes/verification comparison from the git
collaborator; mutates nothing beyond the log. -/
def explainChange (git : GitEnv) (now : String) (st : DriftGuardState) :
    Except DGError (ExplainResult × DriftGuardState) :=
  match validateTransition "dg_explain_change" [.EXECUTING] st with
  | .error e => .error e
  | .ok _ =>
    match st.session.activeTaskId with
    | none => .error (.generic "No active task found")
    | some taskId =>
      match lookupTask st.tasks taskId with
      | none => .error (.generic "No active task found")
      | some task =>
        let intent := task.lastIntent.getD "No intent was declared"
        let n := git.changedFiles.length
        let changes :=
          if n > 0 then
            "Modified " ++ toString n ++ " file(s): " ++
              String.intercalate ", " (git.changedFiles.take 5) ++
              (if n > 5 then "..." else "")
          else "No files changed"
        let verification :=
          match task.testCommand with
          | some cmd => "Run: `" ++ cmd ++ "`"
          | none => "No test command configured. Consider adding one with dg_propose_task."
        let st1 := logAction st now "dg_explain_change" (some taskId)
          (some (toString n ++ " files changed"))
        .ok ({ intent := intent, changes := changes,
               verification := verification, diffSummary := git.diffStat }, st1)

/-- state.ts `setTestCommand`: requires an active task; stores the
verification command on it. -/
def setTestCommand (command now : String) (st : DriftGuardState) :
    Except DGError DriftGuardState :=
  match st.session.activeTaskId with
  | none => .error (.generic "No active task found")
  | some taskId =>
    match lookupTask st.tasks taskId with
    | none => .error (.generic "No active task found")
    | some task =>
      let task1 := { task with testCommand := some command, updatedAt := now }
      let st1 := { st with tasks := upsertTask st.tasks taskId task1 }
      .ok (logAction st1 now "set_test_command" (some taskId) (some command))

/-- Result of `claimScope`. -/
structure ClaimResult where
  granted : Bool
  conflicts : List ScopeClaim
deriving DecidableEq, Repr

/-- state.ts `claimScope`: throws only when there is no active task (it
performs no state-machine validation); evaluates every requested path
against the session's active-claim cache; if any path conflicts the whole
request is rejected with the conflict list and nothing is committed;
otherwise all paths become claims of the active task, the claim cache is
rebuilt from all tasks, and hashes for the task's claim patterns are
snapshotted into the last-known-hash cache. -/
def claimScope (mm : String → String → Bool)
    (hashOracle : List String → List (String × String))
    (now : Nat) (ts : String) (paths : List String) (exclusive : Bool)
    (st : DriftGuardState) : Except DGError (ClaimResult × DriftGuardState) :=
  match st.session.activeTaskId with
  | none => .error (.generic "No active task to claim scope for.")
  | some taskId =>
    match lookupTask st.tasks taskId with
    | none => .error (.generic "TypeError: no task for active task id")
    | some task0 =>
      let task := { task0 with claims := some (task0.claims.getD []) }
      let stN := { st with tasks := upsertTask st.tasks taskId task }
      let allActiveClaims := stN.session.activeClaims.getD []
      let acc := paths.foldl (fun (acc : List ScopeClaim × List ScopeClaim) p =>
        match checkConflict mm p taskId allActiveClaims stN.tasks with
        | some c => (acc.1 ++ [c], acc.2)
        | none => (acc.1, acc.2 ++ [⟨p, exclusive, taskId, now⟩])) ([], [])
      let conflicts := acc.1
      let newClaims := acc.2
      if !conflicts.isEmpty then
        .ok ({ granted := false, conflicts := conflicts }, stN)
      else
        let task1 := { task with claims := some (task.claims.getD [] ++ newClaims) }
        let st1 := refreshActiveClaims { stN with tasks := upsertTask stN.tasks taskId task1 }
        let activePatterns := (task1.claims.getD []).map (fun c => c.path)
        let hashes := calculateFileHashes hashOracle activePatterns
        let st2 := { st1 with session := { st1.session with
          lastKnownFileHashes := some (recordMerge
            (st1.session.lastKnownFileHashes.getD []) hashes) } }
        let st3 := logAction st2 ts "dg_claim_scope" (some taskId)
          (some ("Granted active claims: " ++
            String.intercalate ", " (newClaims.map (fun c => c.path))))
        .ok ({ granted := true, conflicts := [] }, st3)

/-- state.ts `delegateTask`: requires EXECUTING; if the parent holds any
claims, every child scope path must pass the containment check or the
delegation fails with an explicit error; the child task carries
`parentTaskId`, is linked into the parent's sub-task ids, and owns no
claims. -/
def delegateTask (mm : String → String → Bool) (newSubId now : String)
    (subTaskTitle subTaskGoal : String) (subScope : List String)
    (st : DriftGuardState) : Except DGError (TaskContract × DriftGuardState) :=
  match validateTransition "dg_delegate" [.EXECUTING] st with
  | .error e => .error e
  | .ok _ =>
    match st.session.activeTaskId with
    | none => .error (.generic "TypeError: no active task")
    | some parentTaskId =>
      match lookupTask st.tasks parentTaskId with
      | none => .error (.generic "TypeError: no task for active task id")
      | some parentTask =>
        let parentClaims := (parentTask.claims.getD []).map (fun c => c.path)
        if !validateDelegation mm parentClaims subScope && !parentClaims.isEmpty then
          .error (.generic
            "Delegation Failed: Child scope is not contained within Parent's active claims.")
        else
          let subTask : TaskContract :=
            { taskId := newSubId
              title := subTaskTitle
              goal := subTaskGoal
              allowedScopes := subScope
              checklist := []
              strictness := parentTask.strictness
              createdAt := now
              updatedAt := now
              parentTaskId := some parentTaskId
              subTaskIds := some []
              claims := some [] }
          let parentTask1 := { parentTask with
            subTaskIds := some (parentTask.subTaskIds.getD [] ++ [newSubId]) }
          let st1 := { st with tasks := upsertTask st.tasks parentTaskId parentTask1 }
          let st2 := { st1 with tasks := upsertTask st1.tasks newSubId subTask }
          let st3 := logAction st2 now "dg_delegate" (some parentTaskId)
            (some ("Delegated sub-task " ++ newSubId ++ ": " ++ subTaskTitle))
          .ok (subTask, st3)

/-- state.ts `analyzeRisk`: delegates to the risk scorer, then updates the
active task's stored risk score to the running maximum observed. -/
def analyzeRisk (isGitRepo : Bool) (gitLogEmails : Option (List String))
    (targetPath : String) (st : DriftGuardState) :
    (Nat × String) × DriftGuardState :=
  let result := calculateRisk isGitRepo gitLogEmails targetPath
  match st.session.activeTaskId with
  | none => (result, st)
  | some taskId =>
    match lookupTask st.tasks taskId with
    | none => (result, st)
    | some task =>
      let task1 := { task with riskScore := some (max (task.riskScore.getD 0) result.1) }
      (result, { st with tasks := upsertTask st.tasks taskId task1 })

/-- Status returned by `healthCheck`. -/
inductive HealthStatus where
  | CLEAN
  | DIRTY
  | NO_CLAIMS
deriving DecidableEq, Repr

/-- state.ts `healthCheck`: NO_CLAIMS when the session holds no active
claims; otherwise recompute hashes for the active-claim patterns and diff
against the last-known-hash cache — entries new to the cache are NEW,
entries with a differing hash are MODIFIED, cache entries no longer
present that still match an active claim pattern are DELETED; any finding
yields DIRTY, otherwise CLEAN.  No state is mutated. -/
def healthCheck (mm : String → String → Bool)
    (hashOracle : List String → List (String × String))
    (st : DriftGuardState) : HealthStatus × List String :=
  let claims := st.session.activeClaims.getD []
  if claims.isEmpty then (.NO_CLAIMS, [])
  else
    let patterns := claims.map (fun c => c.path)
    let currentHashes := calculateFileHashes hashOracle patterns
    let knownHashes := st.session.lastKnownFileHashes.getD []
    let dirtyNewMod := currentHashes.filterMap (fun e =>
      match recordLookup knownHashes e.1 with
      | none => some (e.1 ++ " (NEW)")
      | some known => if known != e.2 then some (e.1 ++ " (MODIFIED)") else none)
    let dirtyDeleted := knownHashes.filterMap (fun e =>
      if (recordLookup currentHashes e.1).isNone then
        (if patterns.any (fun p => mm e.1 p) then some (e.1 ++ " (DELETED)") else none)
      else none)
    let dirtyFiles := dirtyNewMod ++ dirtyDeleted
    if !dirtyFiles.isEmpty then (.DIRTY, dirtyFiles) else (.CLEAN, [])

/-- state.ts `hydrate`: on a readable snapshot, the whole state is
replaced by it and a `hydrate` entry is logged (the version-mismatch log
writes into the discarded old state); a missing or unparsable file leaves
the state untouched and reports `false`. -/
def hydrate (loaded : Option DriftGuardState) (now : String)
    (st : DriftGuardState) : Bool × DriftGuardState :=
  match loaded with
  | some parsed =>
    (true, logAction parsed now "hydrate" none (some "Session restored from disk"))
  | none => (false, st)

/-- state.ts `initialize` state effect: an existing directory hydrates the
stored snapshot, a fresh one starts from `createInitialState`; either way
a `dg_init` entry is logged. -/
def initializeOp (existingDir : Bool) (loaded : Option DriftGuardState)
    (sessionId : String) (startTime : Nat) (now : String)
    (st : DriftGuardState) : DriftGuardState :=
  let st1 :=
    if existingDir then (hydrate loaded now st).2
    else createInitialState sessionId startTime
  logAction st1 now "dg_init" none (some "Initialized")

/-- state.ts `reset`: back to a fresh initial state plus a reset log
entry. -/
def resetOp (sessionId : String) (startTime : Nat) (now : String)
    (_st : DriftGuardState) : DriftGuardState :=
  logAction (createInitialState sessionId startTime) now "reset" (none)
    (some "State reset")

/-- The claim list a task map associates to a task id, seen through the
`|| []` idiom of the source (`none` when the id keys no task). -/
def claimsView (tasks : List (String × TaskContract)) (id : String) :
    Option (List ScopeClaim) :=
  (lookupTask tasks id).map (fun t => t.claims.getD [])

/-- Replace only the session's focus state, leaving every other component
of the state untouched. -/
def setFocus (st : DriftGuardState) (fs : FocusState) : DriftGuardState :=
  { st with session := { st.session with currentState := fs } }

/-- One public operation of the StateManager together with the external
inputs its execution consumes.  Read-only members of the public API
(`generateHandoff`, `getTimeline`, the getters) do not touch the state and
are represented by `opReadOnly`. -/
inductive Op where
  | opInitialize (existingDir : Bool) (loaded : Option DriftGuardState)
      (sessionId : String) (startTime : Nat) (now : String)
  | opHydrate (loaded : Option DriftGuardState) (now : String)
  | opProposeTask (newTaskId now title goal : String)
      (allowedScopes : List String) (checklist : List (String × String))
      (strictness : Option Nat)
  | opBeginStep (genId now : String) (stepId : Option String)
  | opReportIntent (genId now intent : String) (filesToTouch : List String)
  | opCheckpoint (git : GitEnv)
      (hashOracle : List String → List (String × String))
      (now summary : String) (completedChecklistIds : List String)
  | opPanic (now reason : String)
  | opVerify (cmdSuccess : Bool) (now : String)
  | opExplainChange (git : GitEnv) (now : String)
  | opSetTestCommand (command now : String)
  | opClaimScope (mm : String → String → Bool)
      (hashOracle : List String → List (String × String))
      (now : Nat) (ts : String) (paths : List String) (exclusive : Bool)
  | opDelegateTask (mm : String → String → Bool)
      (newSubId now subTaskTitle subTaskGoal : String) (subScope : List String)
  | opAnalyzeRisk (isGitRepo : Bool) (gitLogEmails : Option (List String))
      (targetPath : String)
  | opHealthCheck (mm : String → String → Bool)
      (hashOracle : List String → List (String × String))
  | opReset (sessionId : String) (startTime : Nat) (now : String)
  | opReadOnly

/-- The state reached by running a public operation; a thrown error leaves
the state unchanged (every operation validates before mutating). -/
def Op.run (op : Op) (st : DriftGuardState) : DriftGuardState :=
  match op with
  | opInitialize a b c d e => initializeOp a b c d e st
  | opHydrate a b => (hydrate a b st).2
  | opProposeTask a b c d e f g =>
    match proposeTask a b c d e f g st with
    | .ok r => r.2
    | .error _ => st
  | opBeginStep a b c =>
    match beginStep a b c st with
    | .ok r => r.2
    | .error _ => st
  | opReportIntent a b c d =>
    match reportIntent a b c d st with
    | .ok r => r.2
    | .error _ => st
  | opCheckpoint a b c d e =>
    match checkpoint a b c d e st with
    | .ok r => r.2
    | .error _ => st
  | opPanic a b => (panicOp a b st).2
  | opVerify a b =>
    match verify a b st with
    | .ok r => r.2
    | .error _ => st
  | opExplainChange a b =>
    match explainChange a b st with
    | .ok r => r.2
    | .error _ => st
  | opSetTestCommand a b =>
    match setTestCommand a b st with
    | .ok r => r
    | .error _ => st
  | opClaimScope a b c d e f =>
    match claimScope a b c d e f st with
    | .ok r => r.2
    | .error _ => st
  | opDelegateTask a b c d e f =>
    match delegateTask a b c d e f st with
    | .ok r => r.2
    | .error _ => st
  | opAnalyzeRisk a b c => (analyzeRisk a b c st).2
  | opHealthCheck _ _ => st
  | opReset a b c => resetOp a b c st
  | opReadOnly => st

/-- The list of annotated drift findings `healthCheck` computes in its
non-`NO_CLAIMS` branch, written out as the two filter passes of the
source (NEW/MODIFIED over the current hashes, DELETED over the cache). -/
def dirtyFindings (mm : String → String → Bool)
    (hashOracle : List String → List (String × String))
    (st : DriftGuardState) : List String :=
  (calculateFileHashes hashOracle
      ((st.session.activeClaims.getD []).map (fun c => c.path))).filterMap (fun e =>
    match recordLookup (st.session.lastKnownFileHashes.getD []) e.1 with
    | none => some (e.1 ++ " (NEW)")
    | some known => if known != e.2 then some (e.1 ++ " (MODIFIED)") else none) ++
  (st.session.lastKnownFileHashes.getD []).filterMap (fun e =>
    if (recordLookup (calculateFileHashes hashOracle
        ((st.session.activeClaims.getD []).map (fun c => c.path))) e.1).isNone then
      (if ((st.session.activeClaims.getD []).map (fun c => c.path)).any
          (fun p => mm e.1 p) then some (e.1 ++ " (DELETED)") else none)
    else none)

/-! ### Concrete fixtures

Small closed inputs used to instantiate the theorems below on concrete
data.  They embed no source code; they are sample states. -/

/-- Fixture: a registered task with no claims. -/
def taskW : TaskContract :=
  { taskId := "t1", title := "T", goal := "G", allowedScopes := ["src/**"]
    checklist := [{ id := "1", text := "x", status := .todo }]
    strictness := 2, createdAt := "0", updatedAt := "0" }

/-- Fixture: a task holding one non-exclusive claim on `src/a`. -/
def taskClaimW : TaskContract :=
  { taskW with
    taskId := "t2"
    claims := some [{ path := "src/a", exclusive := false, ownerTaskId := "t2", createdAt := 0 }] }

/-- Fixture: a session whose active task is `t1` (no claims anywhere). -/
def stActiveW : DriftGuardState :=
  { createInitialState "s" 0 with
    session := { (createInitialState "s" 0).session with activeTaskId := some "t1" }
    tasks := [("t1", taskW)] }

/-- Fixture: active task `t2` holding a claim, claim cache filled, one
known hash. -/
def stClaimW : DriftGuardState :=
  { createInitialState "s" 0 with
    session := { (createInitialState "s" 0).session with
      activeTaskId := some "t2"
      activeClaims := some [{ path := "src/a", exclusive := false, ownerTaskId := "t2", createdAt := 0 }]
      lastKnownFileHashes := some [("src/a", "h0")] }
    tasks := [("t2", taskClaimW)] }

/-- Fixture: a hashing oracle that always reports `src/a` with hash `h1`. -/
def oracleW : List String → List (String × String) := fun _ => [("src/a", "h1")]

/-- Fixture: a matcher that accepts only identical strings (a degenerate
but legitimate instantiation of the abstract glob matcher). -/
def mmEq : String → String → Bool := fun a b => a == b

/-- Fixture: active task `t1` while unrelated task `t2` holds a claim on
`src/a` that is present in the session claim cache. -/
def stConflictW : DriftGuardState :=
  { createInitialState "s" 0 with
    session := { (createInitialState "s" 0).session with
      activeTaskId := some "t1"
      activeClaims := some [{ path := "src/a", exclusive := false, ownerTaskId := "t2", createdAt := 0 }] }
    tasks := [("t1", taskW), ("t2", taskClaimW)] }

end DriftGuard

namespace DriftGuard

theorem checkConflict_eq_find? (mm : String → String → Bool)
    (p tid : String) (claims : List ScopeClaim)
    (tasks : List (String × TaskContract)) :
    checkConflict mm p tid claims tasks =
      claims.find? (conflictsWith mm p tid tasks) := by
  induction claims with
  | nil => rfl
  | cons claim rest ih =>
    unfold checkConflict
    by_cases h1 : claim.ownerTaskId == tid
    · have hc : conflictsWith mm p tid tasks claim = false := by
        simp [conflictsWith, h1]
      simp [h1, List.find?_cons, hc, ih]
    · by_cases h2 : (match lookupTask tasks tid with
        | some requestorTask => requestorTask.parentTaskId == some claim.ownerTaskId
        | none => false)
      · have hc : conflictsWith mm p tid tasks claim = false := by
          simp [conflictsWith, h1, h2]
        simp [h1, h2, List.find?_cons, hc, ih]
      · by_cases h3 : checkOverlap mm p claim.path
        · have hc : conflictsWith mm p tid tasks claim = true := by
            simp [conflictsWith, h1, h2, h3]
          simp [h1, h2, h3, List.find?_cons, hc]
        · have hc : conflictsWith mm p tid tasks claim = false := by
            simp [conflictsWith, h1, h2, h3]
          simp [h1, h2, h3, List.find?_cons, hc, ih]

/-- C1.  Corrected form of the conflict rule: after skipping claims owned
by the requestor or by the requestor's parent task, `checkConflict`
returns the first remaining claim whose pattern overlaps the requested
path under the bidirectional containment test, regardless of whether that
claim is exclusive and regardless of the request's own exclusivity flag
(the selecting predicate `conflictsWith` never reads `exclusive`); no
conflict is reported exactly when every active claim is skipped or fails
the overlap test. -/
theorem c1_overlap_conflicts_regardless_of_exclusivity
    (mm : String → String → Bool) (p tid : String)
    (claims : List ScopeClaim) (tasks : List (String × TaskContract)) :
    checkConflict mm p tid claims tasks =
      claims.find? (conflictsWith mm p tid tasks) ∧
    (checkConflict mm p tid claims tasks = none ↔
      ∀ c ∈ claims, conflictsWith mm p tid tasks c = false) := by
  refine ⟨checkConflict_eq_find? mm p tid claims tasks, ?_⟩
  rw [checkConflict_eq_find? mm p tid claims tasks]
  simp [List.find?_eq_none]

/-- C1, counterexample to the claim as stated: an overlapping existing
claim that is not exclusive (owned by an unrelated task) does cause a
conflict — `checkConflict` reports it. -/
theorem c1_counterexample :
    checkConflict (fun _ _ => false) "a" "t1"
      [{ path := "a", exclusive := false, ownerTaskId := "t2", createdAt := 0 }]
      [] =
      some { path := "a", exclusive := false, ownerTaskId := "t2", createdAt := 0 } ∧
    ({ path := "a", exclusive := false, ownerTaskId := "t2", createdAt := 0 } :
      ScopeClaim).exclusive = false :=
  ⟨rfl, rfl⟩

/-- C4.  Evidence for the claim against the code: `proposeTask` from IDLE
registers the task with an all-`todo` checklist and default strictness 2
and makes it the active task, but the session's focus state remains IDLE —
the source never assigns PLANNING (the assignment present in the earlier
revision of the file was dropped, while `delegateTask`'s own comment still
asserts that `proposeTask` changes state to PLANNING). -/
theorem c4_proposeTask_stays_IDLE :
    ((proposeTask "task_1" "t0" "T" "G" ["src/**"] [("1", "x")] none
        (createInitialState "s" 0)).toOption.map (fun r =>
      (r.2.session.currentState, r.2.session.activeTaskId, r.1.strictness,
        r.1.checklist, lookupTask r.2.tasks "task_1" == some r.1))) =
      some (FocusState.IDLE, some "task_1", 2,
        [{ id := "1", text := "x", status := ItemStatus.todo }], true) ∧
    FocusState.IDLE ≠ FocusState.PLANNING :=
  ⟨rfl, by decide⟩

/-- C3, counterexample to the claim as stated: with `intentFiled = false`
but the session not in EXECUTING (here the fresh IDLE session), checkpoint
fails with a `StateTransitionError`, not with `IntentMissingError` — the
state check runs first. -/
theorem c3_counterexample :
    (createInitialState "s" 0).session.intentFiled = false ∧
    (createInitialState "s" 0).session.currentState ≠ FocusState.EXECUTING ∧
    checkpoint { isGitRepo := false, changedFiles := [], diffStat := "", noteWriteOk := false }
      (fun _ => []) "t" "sum" [] (createInitialState "s" 0) =
      .error (.stateTransition "dg_checkpoint" .IDLE [.EXECUTING]) ∧
    (DGError.stateTransition "dg_checkpoint" .IDLE [.EXECUTING]) ≠ DGError.intentMissing :=
  ⟨rfl, by decide, rfl, by decide⟩

/-- C3.  Amended: `checkpoint` raises `IntentMissingError` whenever
`intentFiled = false` and the session is in EXECUTING (the one state that
passes its validation); from any other state it raises
`StateTransitionError` first, regardless of `intentFiled`. -/
theorem c3_checkpoint_intent_gate (git : GitEnv)
    (hashOracle : List String → List (String × String))
    (now summary : String) (ids : List String) (st : DriftGuardState) :
    (st.session.currentState = FocusState.EXECUTING →
      st.session.intentFiled = false →
      checkpoint git hashOracle now summary ids st = .error .intentMissing) ∧
    (st.session.currentState ≠ FocusState.EXECUTING →
      checkpoint git hashOracle now summary ids st =
        .error (.stateTransition "dg_checkpoint" st.session.currentState
          [.EXECUTING])) := by
  constructor
  · intro hs hi
    unfold checkpoint validateTransition
    rw [hs, hi]
    simp
  · intro hs
    unfold checkpoint validateTransition
    cases hcs : st.session.currentState <;> simp_all

/-- C3, witness: a session in EXECUTING with no intent filed hits the
`IntentMissingError`. -/
theorem c3_checkpoint_intent_gate_witness :
    checkpoint { isGitRepo := false, changedFiles := [], diffStat := "", noteWriteOk := false }
      (fun _ => []) "t" "sum" []
      (setFocus (createInitialState "s" 0) .EXECUTING) = .error .intentMissing :=
  (c3_checkpoint_intent_gate _ _ _ _ _ _).1 rfl rfl

/-- C7, counterexample to the claim as stated: for a test-named path with
60 commits by a single author, the code's score is `min 100 (2*60+5*1-20)
= 100` (deduction before the cap), while the claimed formula
`min(100, 2c+5a)`-then-subtract-20 yields 80. -/
theorem c7_counterexample :
    (List.replicate 60 "a").length = 60 ∧
    (List.replicate 60 "a").dedup.length = 1 ∧
    isTestPath "test.ts" = true ∧
    (calculateRisk true (some (List.replicate 60 "a")) "test.ts").1 = 100 ∧
    specRiskFormula 60 1 true = 80 ∧
    (100 : Nat) ≠ 80 := by
  refine ⟨by decide, by decide, by decide, rfl, by decide, by decide⟩

theorem find?_map_upsert (tasks : List (String × TaskContract)) (id : String)
    (t : TaskContract) :
    lookupTask (tasks.map (fun e => if e.1 == id then (id, t) else e)) id =
      (lookupTask tasks id).map (fun _ => t) := by
  induction tasks with
  | nil => rfl
  | cons e rest ih =>
    unfold lookupTask at ih ⊢
    cases he : (e.1 == id) with
    | true =>
      rw [List.map_cons, if_pos he, List.find?_cons, List.find?_cons, he]
      simp
    | false =>
      have hne : ¬((e.1 == id) = true) := by simp [he]
      rw [List.map_cons, if_neg hne, List.find?_cons, List.find?_cons, he]
      simpa using ih

theorem lookupTask_upsert_self (tasks : List (String × TaskContract))
    (id : String) (t : TaskContract) :
    lookupTask (upsertTask tasks id t) id = some t := by
  unfold upsertTask
  by_cases h : (lookupTask tasks id).isSome
  · rw [if_pos h, find?_map_upsert]
    cases hx : lookupTask tasks id
    · rw [hx] at h; simp at h
    · simp
  · rw [if_neg h]
    unfold lookupTask
    have hn : (tasks.find? (fun e => e.1 == id)) = none := by
      unfold lookupTask at h
      cases hx : tasks.find? (fun e => e.1 == id)
      · rfl
      · rw [hx] at h; simp at h
    rw [List.find?_append, hn]
    simp

theorem lookupTask_upsert_other (tasks : List (String × TaskContract))
    (id id' : String) (t : TaskContract) (h : (id' == id) = false) :
    lookupTask (upsertTask tasks id t) id' = lookupTask tasks id' := by
  have hsymm : (id == id') = false := by
    cases hx : (id == id')
    · rfl
    · rw [beq_iff_eq] at hx; subst hx; simp at h
  unfold upsertTask
  by_cases hp : (lookupTask tasks id).isSome
  · rw [if_pos hp]
    clear hp
    induction tasks with
    | nil => rfl
    | cons e rest ih =>
      unfold lookupTask at ih ⊢
      cases he : (e.1 == id) with
      | true =>
        have he' : (e.1 == id') = false := by
          rw [beq_iff_eq] at he; subst he; exact hsymm
        rw [List.map_cons, if_pos he, List.find?_cons, List.find?_cons, he', hsymm]
        simpa using ih
      | false =>
        have hne : ¬((e.1 == id) = true) := by simp [he]
        rw [List.map_cons, if_neg hne, List.find?_cons, List.find?_cons]
        cases he2 : (e.1 == id')
        · simpa using ih
        · simp
  · rw [if_neg hp]
    unfold lookupTask
    rw [List.find?_append]
    cases hx : tasks.find? (fun e => e.1 == id')
    · simp [hsymm]
    · simp

/-- C7.  Amended: with the repository available and the log call
succeeding, the score is `min 100 s` where `s` is `2c + 5a` with 20
subtracted (floored at 0) for test/spec paths — the deduction is applied
before the cap; a non-repository target or a git error yields score 0
with an explanatory reason; and `analyzeRisk` raises the active task's
stored risk score to the running maximum. -/
theorem c7_calculateRisk_formula (emails : List String) (path : String)
    (g : Option (List String)) (isRepo : Bool) (st : DriftGuardState) :
    ((calculateRisk true (some emails) path).1 =
      min 100 (if isTestPath path then
        emails.length * 2 + emails.dedup.length * 5 - 20
      else emails.length * 2 + emails.dedup.length * 5)) ∧
    (calculateRisk false g path = (0, "Not a git repository")) ∧
    (calculateRisk true none path = (0, "Error accessing git logs")) ∧
    (∀ tid task, st.session.activeTaskId = some tid →
      lookupTask st.tasks tid = some task →
      (lookupTask (analyzeRisk isRepo g path st).2.tasks tid).map
          (fun t => t.riskScore) =
        some (some (max (task.riskScore.getD 0)
          (calculateRisk isRepo g path).1))) := by
  refine ⟨?_, rfl, rfl, ?_⟩
  · simp only [calculateRisk]
    rw [if_neg (by decide)]
  · intro tid task htid htask
    simp only [analyzeRisk, htid, htask]
    simp [lookupTask_upsert_self]

/-- C7, witness: the general formula instantiated on the fixture session
(no git repository: score 0, and the stored risk score becomes the
maximum of the previous absent score and 0). -/
theorem c7_calculateRisk_formula_witness :
    (lookupTask (analyzeRisk false none "p" stActiveW).2.tasks "t1").map
        (fun t => t.riskScore) =
      some (some (max ((taskW.riskScore).getD 0) (calculateRisk false none "p").1)) :=
  (c7_calculateRisk_formula [] "p" none false stActiveW).2.2.2 "t1" taskW rfl rfl

/-- C5.  In EXECUTING with an active parent task: when the parent holds at
least one claim, delegation succeeds exactly when every child scope
pattern is covered by some parent-claim pattern (identical, or the parent
pattern's matcher accepts the child pattern's text), and fails with the
explicit containment error otherwise; with no parent claims it succeeds
unconditionally; a successful delegation creates the child with
`parentTaskId` set, no claims, and linked into the parent's sub-task
list. -/
theorem c5_delegateTask_containment (mm : String → String → Bool)
    (newSubId now title goal : String) (subScope : List String)
    (st : DriftGuardState) (pid : String) (parent : TaskContract)
    (hstate : st.session.currentState = FocusState.EXECUTING)
    (hactive : st.session.activeTaskId = some pid)
    (hparent : lookupTask st.tasks pid = some parent)
    (hfresh : lookupTask st.tasks newSubId = none) :
    ((parent.claims.getD []).map (fun c => c.path) ≠ [] →
      ((∃ r, delegateTask mm newSubId now title goal subScope st = .ok r) ↔
        validateDelegation mm ((parent.claims.getD []).map (fun c => c.path))
          subScope = true) ∧
      (validateDelegation mm ((parent.claims.getD []).map (fun c => c.path))
          subScope = false →
        delegateTask mm newSubId now title goal subScope st =
          .error (.generic
            "Delegation Failed: Child scope is not contained within Parent's active claims."))) ∧
    ((parent.claims.getD []).map (fun c => c.path) = [] →
      ∃ r, delegateTask mm newSubId now title goal subScope st = .ok r) ∧
    (validateDelegation mm ((parent.claims.getD []).map (fun c => c.path))
        subScope = true ↔
      ∀ c ∈ subScope, ∃ p ∈ (parent.claims.getD []).map (fun c => c.path),
        (mm c p || (c == p)) = true) ∧
    (∀ sub st', delegateTask mm newSubId now title goal subScope st = .ok (sub, st') →
      sub.parentTaskId = some pid ∧ sub.claims = some [] ∧
      (lookupTask st'.tasks pid).map (fun t => t.subTaskIds.getD []) =
        some (parent.subTaskIds.getD [] ++ [newSubId]) ∧
      lookupTask st'.tasks newSubId = some sub) := by
  have hne : (newSubId == pid) = false := by
    cases hx : (newSubId == pid)
    · rfl
    · rw [beq_iff_eq] at hx
      subst hx
      rw [hparent] at hfresh
      cases hfresh
  have hpid : (pid == newSubId) = false := by
    cases hx : (pid == newSubId)
    · rfl
    · rw [beq_iff_eq] at hx
      subst hx
      simp at hne
  have hok : validateTransition "dg_delegate" [FocusState.EXECUTING] st = .ok () := by
    unfold validateTransition
    rw [if_pos (by rw [hstate]; exact List.mem_singleton.mpr rfl)]
  refine ⟨?_, ?_, ?_, ?_⟩
  · intro hclaims
    have hie : (((parent.claims.getD []).map (fun c => c.path)).isEmpty) = false := by
      cases hc : (parent.claims.getD []).map (fun c => c.path)
      · exact absurd hc hclaims
      · rfl
    constructor
    · constructor
      · rintro ⟨r, hr⟩
        by_cases hv : validateDelegation mm
            ((parent.claims.getD []).map (fun c => c.path)) subScope = true
        · exact hv
        · exfalso
          rw [Bool.not_eq_true] at hv
          unfold delegateTask at hr
          simp only [hok, hactive, hparent] at hr
          simp [hv, hie] at hr
      · intro hv
        cases hd : delegateTask mm newSubId now title goal subScope st with
        | ok r => exact ⟨r, rfl⟩
        | error e =>
          exfalso
          unfold delegateTask at hd
          simp [hok, hactive, hparent, hv] at hd
    · intro hv
      unfold delegateTask
      simp [hok, hactive, hparent, hv, hie]
  · intro hclaims
    cases hd : delegateTask mm newSubId now title goal subScope st with
    | ok r => exact ⟨r, rfl⟩
    | error e =>
      exfalso
      unfold delegateTask at hd
      simp [hok, hactive, hparent, hclaims] at hd
  · unfold validateDelegation coveredBy
    simp [List.all_eq_true, List.any_eq_true]
  · intro sub st' hr
    unfold delegateTask at hr
    simp only [hok, hactive, hparent] at hr
    split at hr
    · cases hr
    · simp only [Except.ok.injEq, Prod.mk.injEq] at hr
      obtain ⟨hsub, hst⟩ := hr
      subst hsub
      subst hst
      refine ⟨rfl, rfl, ?_, ?_⟩
      · unfold logAction
        simp only
        rw [lookupTask_upsert_other _ _ _ _ hpid, lookupTask_upsert_self]
        simp
      · unfold logAction
        simp only
        rw [lookupTask_upsert_self]

/-- C5, witness: with no parent claims, delegation from EXECUTING
succeeds, and the child is linked under the parent. -/
theorem c5_delegateTask_containment_witness :
    (∃ r, delegateTask mmEq "t9" "1" "C" "CG" ["src/x"]
        (setFocus stActiveW .EXECUTING) = .ok r) ∧
    ((taskW.claims).getD []).map (fun c => c.path) = [] :=
  ⟨((c5_delegateTask_containment mmEq "t9" "1" "C" "CG" ["src/x"]
      (setFocus stActiveW .EXECUTING) "t1" taskW rfl rfl rfl rfl).2.1 (by decide)),
   by decide⟩


/-- C8.  `panic` succeeds from every focus state and moves the session to
PANIC; and from PANIC each public operation that validates state
(`proposeTask`, `beginStep`, `reportIntent`, `checkpoint`, `verify`,
`explainChange`, `delegateTask`) fails with a `StateTransitionError`, so
none of them moves the session out of PANIC — only a manual reset does. -/
theorem c8_panic_sticky :
    (∀ now reason st,
      (panicOp now reason st).2.session.currentState = FocusState.PANIC ∧
      (panicOp now reason st).1.currentState = FocusState.PANIC) ∧
    (∀ st : DriftGuardState, st.session.currentState = FocusState.PANIC →
      (∀ a b c d e f g, proposeTask a b c d e f g st =
        .error (.stateTransition "dg_propose_task" .PANIC [.IDLE])) ∧
      (∀ a b c, beginStep a b c st =
        .error (.stateTransition "dg_begin_step" .PANIC [.PLANNING, .IDLE])) ∧
      (∀ a b c d, reportIntent a b c d st =
        .error (.stateTransition "dg_report_intent" .PANIC [.PLANNING, .IDLE])) ∧
      (∀ g h a b c, checkpoint g h a b c st =
        .error (.stateTransition "dg_checkpoint" .PANIC [.EXECUTING])) ∧
      (∀ a b, verify a b st =
        .error (.stateTransition "dg_verify" .PANIC [.EXECUTING])) ∧
      (∀ g a, explainChange g a st =
        .error (.stateTransition "dg_explain_change" .PANIC [.EXECUTING])) ∧
      (∀ mm a b c d e, delegateTask mm a b c d e st =
        .error (.stateTransition "dg_delegate" .PANIC [.EXECUTING]))) := by
  constructor
  · intro now reason st
    exact ⟨rfl, rfl⟩
  · intro st h
    have hv : ∀ action allowed, FocusState.PANIC ∉ allowed →
        validateTransition action allowed st =
          .error (.stateTransition action .PANIC allowed) := by
      intro action allowed hmem
      unfold validateTransition
      rw [h, if_neg hmem]
    refine ⟨?_, ?_, ?_, ?_, ?_, ?_, ?_⟩
    · intro a b c d e f g
      unfold proposeTask
      rw [hv _ _ (by decide)]
    · intro a b c
      unfold beginStep
      rw [hv _ _ (by decide)]
    · intro a b c d
      unfold reportIntent
      rw [hv _ _ (by decide)]
    · intro g hh a b c
      unfold checkpoint
      rw [hv _ _ (by decide)]
    · intro a b
      unfold verify
      rw [hv _ _ (by decide)]
    · intro g a
      unfold explainChange
      rw [hv _ _ (by decide)]
    · intro mm a b c d e
      unfold delegateTask
      rw [hv _ _ (by decide)]

/-- C8, witness: from a PANIC session, `panic` itself still lands in
PANIC and the state-validated operations fail. -/
theorem c8_panic_sticky_witness :
    (panicOp "0" "r" (setFocus (createInitialState "s" 0) .PANIC)).2.session.currentState =
      FocusState.PANIC ∧
    proposeTask "t" "0" "T" "G" [] [] none
        (setFocus (createInitialState "s" 0) .PANIC) =
      .error (.stateTransition "dg_propose_task" .PANIC [.IDLE]) ∧
    checkpoint { isGitRepo := false, changedFiles := [], diffStat := "", noteWriteOk := false }
        (fun _ => []) "0" "s" [] (setFocus (createInitialState "s" 0) .PANIC) =
      .error (.stateTransition "dg_checkpoint" .PANIC [.EXECUTING]) :=
  ⟨(c8_panic_sticky.1 "0" "r" (setFocus (createInitialState "s" 0) .PANIC)).1,
   (c8_panic_sticky.2 _ rfl).1 "t" "0" "T" "G" [] [] none,
   (c8_panic_sticky.2 _ rfl).2.2.2.1 _ _ "0" "s" []⟩

/-- C10.  `claimScope` never reads the focus state: replacing the focus
state of the input replaces exactly the focus state of the output (for all
focus states, PANIC and IDLE included); when it throws, the error is never
a `StateTransitionError`; it throws the no-active-task error when
`activeTaskId` is unset, and — under the documented invariant that an
active task id keys an existing task — it throws exactly when there is no
active task. -/
theorem c10_claimScope_ignores_focus (mm : String → String → Bool)
    (hashOracle : List String → List (String × String)) (now : Nat)
    (ts : String) (paths : List String) (exclusive : Bool)
    (st : DriftGuardState) (fs : FocusState) :
    (claimScope mm hashOracle now ts paths exclusive (setFocus st fs) =
      (claimScope mm hashOracle now ts paths exclusive st).map
        (fun r => (r.1, setFocus r.2 fs))) ∧
    (∀ e, claimScope mm hashOracle now ts paths exclusive st = .error e →
      ∀ a f al, e ≠ .stateTransition a f al) ∧
    (st.session.activeTaskId = none →
      claimScope mm hashOracle now ts paths exclusive st =
        .error (.generic "No active task to claim scope for.")) ∧
    ((∀ tid, st.session.activeTaskId = some tid → (lookupTask st.tasks tid).isSome) →
      ((∃ e, claimScope mm hashOracle now ts paths exclusive st = .error e) ↔
        st.session.activeTaskId = none)) := by
  refine ⟨?_, ?_, ?_, ?_⟩
  · unfold claimScope setFocus
    simp only []
    cases ha : st.session.activeTaskId with
    | none => rfl
    | some tid =>
      simp only []
      cases hl : lookupTask st.tasks tid with
      | none => rfl
      | some task0 =>
        simp only []
        split <;> (rw [← ha]; try rfl)
  · intro e he a f al
    unfold claimScope at he
    cases ha : st.session.activeTaskId with
    | none =>
      rw [ha] at he
      simp only at he
      cases he
      simp
    | some tid =>
      rw [ha] at he
      simp only at he
      cases hl : lookupTask st.tasks tid with
      | none =>
        rw [hl] at he
        simp only at he
        cases he
        simp
      | some task0 =>
        rw [hl] at he
        simp only at he
        split at he <;> cases he
  · intro ha
    unfold claimScope
    rw [ha]
  · intro hwf
    constructor
    · rintro ⟨e, he⟩
      cases ha : st.session.activeTaskId with
      | none => rfl
      | some tid =>
        exfalso
        have hs := hwf tid ha
        cases hl : lookupTask st.tasks tid with
        | none => rw [hl] at hs; cases hs
        | some task0 =>
          unfold claimScope at he
          rw [ha] at he
          simp only at he
          rw [hl] at he
          simp only at he
          split at he <;> cases he
    · intro ha
      refine ⟨.generic "No active task to claim scope for.", ?_⟩
      unfold claimScope
      rw [ha]


theorem healthCheck_eq_dirtyFindings (mm : String → String → Bool)
    (hashOracle : List String → List (String × String)) (st : DriftGuardState) :
    healthCheck mm hashOracle st =
      (if (st.session.activeClaims.getD []).isEmpty then (.NO_CLAIMS, [])
       else if !(dirtyFindings mm hashOracle st).isEmpty then
         (.DIRTY, dirtyFindings mm hashOracle st)
       else (.CLEAN, [])) := rfl

theorem dirtyFindings_eq_nil_iff (mm : String → String → Bool)
    (hashOracle : List String → List (String × String)) (st : DriftGuardState) :
    dirtyFindings mm hashOracle st = [] ↔
      ((∀ e ∈ calculateFileHashes hashOracle
          ((st.session.activeClaims.getD []).map (fun c => c.path)),
        recordLookup (st.session.lastKnownFileHashes.getD []) e.1 = some e.2) ∧
       (∀ e ∈ st.session.lastKnownFileHashes.getD [],
        recordLookup (calculateFileHashes hashOracle
          ((st.session.activeClaims.getD []).map (fun c => c.path))) e.1 ≠ none ∨
        ∀ p ∈ (st.session.activeClaims.getD []).map (fun c => c.path),
          mm e.1 p = false)) := by
  unfold dirtyFindings
  rw [List.append_eq_nil, List.filterMap_eq_nil_iff, List.filterMap_eq_nil_iff]
  constructor
  · rintro ⟨h1, h2⟩
    constructor
    · intro e he
      have hx := h1 e he
      cases hl : recordLookup (st.session.lastKnownFileHashes.getD []) e.1 with
      | none =>
        rw [hl] at hx
        cases hx
      | some k =>
        rw [hl] at hx
        simp only [] at hx
        cases hbe : (k != e.2) with
        | true =>
          rw [hbe] at hx
          simp at hx
        | false =>
          have hk : k = e.2 := by
            have hb := hbe
            rw [bne_eq_false_iff_eq] at hb
            exact hb
          rw [hk]
    · intro e he
      have hx := h2 e he
      cases hl : recordLookup (calculateFileHashes hashOracle
          ((st.session.activeClaims.getD []).map (fun c => c.path))) e.1 with
      | some v =>
        exact Or.inl (by simp)
      | none =>
        rw [hl] at hx
        simp only [Option.isNone_none, eq_self_iff_true, if_true] at hx
        cases hany : ((st.session.activeClaims.getD []).map (fun c => c.path)).any
            (fun p => mm e.1 p) with
        | true =>
          rw [hany] at hx
          simp at hx
        | false =>
          refine Or.inr (fun p hp => ?_)
          simpa using List.any_eq_false.mp hany p hp
  · rintro ⟨h1, h2⟩
    constructor
    · intro e he
      rw [h1 e he]
      simp
    · intro e he
      rcases h2 e he with hcase | hcase
      · cases hl : recordLookup (calculateFileHashes hashOracle
            ((st.session.activeClaims.getD []).map (fun c => c.path))) e.1 with
        | none => exact absurd hl hcase
        | some v => simp [hl]
      · cases hl : recordLookup (calculateFileHashes hashOracle
            ((st.session.activeClaims.getD []).map (fun c => c.path))) e.1 with
        | some v => simp [hl]
        | none =>
          have hany : ((st.session.activeClaims.getD []).map (fun c => c.path)).any
              (fun p => mm e.1 p) = false := by
            rw [List.any_eq_false]
            intro p hp
            simp [hcase p hp]
          simp [hl, hany]

/-- C6.  `healthCheck` returns NO_CLAIMS without claims; with claims, a
current-hash entry absent from the cache is reported NEW, one differing
from the cache MODIFIED, and a cache entry absent from the current hashes
and still matched by some active claim pattern DELETED; the status is
DIRTY exactly when the annotated list is non-empty, and CLEAN exactly when
every current entry agrees with the cache and every cache entry is either
still present or matched by no pattern. -/
theorem c6_healthCheck_drift_detection (mm : String → String → Bool)
    (hashOracle : List String → List (String × String)) (st : DriftGuardState) :
    (st.session.activeClaims.getD [] = [] →
      healthCheck mm hashOracle st = (.NO_CLAIMS, [])) ∧
    (st.session.activeClaims.getD [] ≠ [] →
      (∀ f h, (f, h) ∈ calculateFileHashes hashOracle
            ((st.session.activeClaims.getD []).map (fun c => c.path)) →
        recordLookup (st.session.lastKnownFileHashes.getD []) f = none →
        (f ++ " (NEW)") ∈ (healthCheck mm hashOracle st).2) ∧
      (∀ f h h', (f, h) ∈ calculateFileHashes hashOracle
            ((st.session.activeClaims.getD []).map (fun c => c.path)) →
        recordLookup (st.session.lastKnownFileHashes.getD []) f = some h' →
        h' ≠ h →
        (f ++ " (MODIFIED)") ∈ (healthCheck mm hashOracle st).2) ∧
      (∀ f h, (f, h) ∈ st.session.lastKnownFileHashes.getD [] →
        recordLookup (calculateFileHashes hashOracle
          ((st.session.activeClaims.getD []).map (fun c => c.path))) f = none →
        (∃ p ∈ (st.session.activeClaims.getD []).map (fun c => c.path),
          mm f p = true) →
        (f ++ " (DELETED)") ∈ (healthCheck mm hashOracle st).2) ∧
      ((healthCheck mm hashOracle st).1 = .DIRTY ↔
        (healthCheck mm hashOracle st).2 ≠ []) ∧
      ((healthCheck mm hashOracle st).1 = .CLEAN ↔
        ((∀ e ∈ calculateFileHashes hashOracle
            ((st.session.activeClaims.getD []).map (fun c => c.path)),
          recordLookup (st.session.lastKnownFileHashes.getD []) e.1 = some e.2) ∧
         (∀ e ∈ st.session.lastKnownFileHashes.getD [],
          recordLookup (calculateFileHashes hashOracle
            ((st.session.activeClaims.getD []).map (fun c => c.path))) e.1 ≠ none ∨
          ∀ p ∈ (st.session.activeClaims.getD []).map (fun c => c.path),
            mm e.1 p = false)))) := by
  constructor
  · intro h
    rw [healthCheck_eq_dirtyFindings, if_pos (by rw [h]; rfl)]
  · intro hne
    have hie : (st.session.activeClaims.getD []).isEmpty = false := by
      cases hc : st.session.activeClaims.getD []
      · exact absurd hc hne
      · rfl
    have hhc : healthCheck mm hashOracle st =
        (if !(dirtyFindings mm hashOracle st).isEmpty then
          (.DIRTY, dirtyFindings mm hashOracle st)
        else (.CLEAN, [])) := by
      rw [healthCheck_eq_dirtyFindings, if_neg (by rw [hie]; simp)]
    have hmem : ∀ x, x ∈ dirtyFindings mm hashOracle st →
        x ∈ (healthCheck mm hashOracle st).2 := by
      intro x hx
      rw [hhc, if_pos]
      · exact hx
      · cases hd : dirtyFindings mm hashOracle st
        · rw [hd] at hx; cases hx
        · rfl
    refine ⟨?_, ?_, ?_, ?_, ?_⟩
    · intro f h hf hl
      apply hmem
      unfold dirtyFindings
      apply List.mem_append_left
      exact List.mem_filterMap.mpr ⟨(f, h), hf, by rw [hl]⟩
    · intro f h h' hf hl hne2
      apply hmem
      unfold dirtyFindings
      apply List.mem_append_left
      refine List.mem_filterMap.mpr ⟨(f, h), hf, ?_⟩
      rw [hl]
      simp only
      rw [if_pos (by simp [bne_iff_ne]; exact hne2)]
    · intro f h hf hl hp
      apply hmem
      unfold dirtyFindings
      apply List.mem_append_right
      refine List.mem_filterMap.mpr ⟨(f, h), hf, ?_⟩
      rw [hl]
      simp only [Option.isNone_none, if_pos]
      rw [if_pos]
      obtain ⟨p, hp1, hp2⟩ := hp
      exact List.any_eq_true.mpr ⟨p, hp1, hp2⟩
    · rw [hhc]
      cases hd : dirtyFindings mm hashOracle st
      · simp
      · simp
    · rw [hhc]
      cases hd : dirtyFindings mm hashOracle st with
      | nil =>
        simp only [hd, List.isEmpty_nil, Bool.not_true, Bool.false_eq_true, if_false]
        constructor
        · intro _
          exact (dirtyFindings_eq_nil_iff mm hashOracle st).mp hd
        · intro _
          trivial
      | cons x xs =>
        simp only [List.isEmpty_cons, Bool.not_false, eq_self_iff_true, if_true]
        constructor
        · intro hcon
          cases hcon
        · intro hcond
          exfalso
          have hnil := (dirtyFindings_eq_nil_iff mm hashOracle st).mpr hcond
          rw [hd] at hnil
          cases hnil

/-- C6, witness: the fixture session holds one claim on `src/a` whose
on-disk hash has changed; `healthCheck` reports it MODIFIED. -/
theorem c6_healthCheck_drift_detection_witness :
    stClaimW.session.activeClaims.getD [] ≠ [] ∧
    ("src/a" ++ " (MODIFIED)") ∈ (healthCheck mmEq oracleW stClaimW).2 :=
  ⟨by decide,
   ((c6_healthCheck_drift_detection mmEq oracleW stClaimW).2 (by decide)).2.1
     "src/a" "h1" "h0" (by decide) (by decide) (by decide)⟩

/-- C10, witness: without an active task `claimScope` throws the
no-active-task error; with one (and a wellformed task map) the error-iff
characterisation applies. -/
theorem c10_claimScope_ignores_focus_witness :
    claimScope mmEq oracleW 0 "0" ["src/a"] false (createInitialState "s" 0) =
      .error (.generic "No active task to claim scope for.") ∧
    ((∃ e, claimScope mmEq oracleW 0 "0" ["src/a"] false stActiveW = .error e) ↔
      stActiveW.session.activeTaskId = none) :=
  ⟨(c10_claimScope_ignores_focus mmEq oracleW 0 "0" ["src/a"] false
      (createInitialState "s" 0) .IDLE).2.2.1 rfl,
   (c10_claimScope_ignores_focus mmEq oracleW 0 "0" ["src/a"] false
      stActiveW .IDLE).2.2.2 (by
        intro tid h
        injection h with h2
        subst h2
        rfl)⟩


theorem claimFold_eq (mm : String → String → Bool) (taskId : String)
    (active : List ScopeClaim) (tasks : List (String × TaskContract))
    (exclusive : Bool) (now : Nat) (paths : List String)
    (acc : List ScopeClaim × List ScopeClaim) :
    paths.foldl (fun (acc : List ScopeClaim × List ScopeClaim) p =>
      match checkConflict mm p taskId active tasks with
      | some c => (acc.1 ++ [c], acc.2)
      | none => (acc.1, acc.2 ++
          [{ path := p, exclusive := exclusive, ownerTaskId := taskId, createdAt := now }])) acc =
      (acc.1 ++ paths.filterMap (fun p => checkConflict mm p taskId active tasks),
       acc.2 ++ (paths.filter (fun p =>
           (checkConflict mm p taskId active tasks).isNone)).map
         (fun p => { path := p, exclusive := exclusive, ownerTaskId := taskId,
                     createdAt := now })) := by
  induction paths generalizing acc with
  | nil => simp
  | cons p rest ih =>
    simp only [List.foldl_cons]
    cases hf : checkConflict mm p taskId active tasks with
    | some c =>
      rw [ih]
      simp [List.filterMap_cons, List.filter_cons, hf]
    | none =>
      rw [ih]
      simp [List.filterMap_cons, List.filter_cons, hf]

theorem checkConflict_tasks_congr (mm : String → String → Bool) (p tid : String)
    (claims : List ScopeClaim) (tasks1 tasks2 : List (String × TaskContract))
    (h : (lookupTask tasks1 tid).map (fun t => t.parentTaskId) =
         (lookupTask tasks2 tid).map (fun t => t.parentTaskId)) :
    checkConflict mm p tid claims tasks1 = checkConflict mm p tid claims tasks2 := by
  induction claims with
  | nil => rfl
  | cons claim rest ih =>
    unfold checkConflict
    have hm : (match lookupTask tasks1 tid with
        | some t => t.parentTaskId == some claim.ownerTaskId
        | none => false) =
        (match lookupTask tasks2 tid with
        | some t => t.parentTaskId == some claim.ownerTaskId
        | none => false) := by
      cases h1 : lookupTask tasks1 tid with
      | none =>
        cases h2 : lookupTask tasks2 tid with
        | none => rfl
        | some t2 => rw [h1, h2] at h; cases h
      | some t1 =>
        cases h2 : lookupTask tasks2 tid with
        | none => rw [h1, h2] at h; cases h
        | some t2 =>
          rw [h1, h2] at h
          simp only [Option.map_some', Option.some.injEq] at h
          simp [h]
    rw [hm, ih]

/-- C2.  `claimScope` is atomic: when some requested path conflicts, the
result is `granted = false` carrying exactly the conflicts found per path,
no task's claim list changes, and the claim cache, hash cache and log are
untouched; when no path conflicts, every requested path becomes a claim of
the active task (appended in order, owned by it), other tasks' claim lists
are untouched, and the session claim cache is rebuilt from all tasks'
claim lists. -/
theorem c2_claimScope_atomicity (mm : String → String → Bool)
    (hashOracle : List String → List (String × String)) (now : Nat)
    (ts : String) (paths : List String) (exclusive : Bool)
    (st : DriftGuardState) (tid : String) (task : TaskContract)
    (htid : st.session.activeTaskId = some tid)
    (htask : lookupTask st.tasks tid = some task) :
    (paths.filterMap (fun p => checkConflict mm p tid
        (st.session.activeClaims.getD []) st.tasks) ≠ [] →
      ∃ st', claimScope mm hashOracle now ts paths exclusive st =
          .ok ({ granted := false,
                 conflicts := paths.filterMap (fun p => checkConflict mm p tid
                   (st.session.activeClaims.getD []) st.tasks) }, st') ∧
        st'.session.activeClaims = st.session.activeClaims ∧
        st'.session.lastKnownFileHashes = st.session.lastKnownFileHashes ∧
        st'.logs = st.logs ∧
        ∀ id, claimsView st'.tasks id = claimsView st.tasks id) ∧
    (paths.filterMap (fun p => checkConflict mm p tid
        (st.session.activeClaims.getD []) st.tasks) = [] →
      ∃ st', claimScope mm hashOracle now ts paths exclusive st =
          .ok ({ granted := true, conflicts := [] }, st') ∧
        claimsView st'.tasks tid =
          some (task.claims.getD [] ++ paths.map (fun p =>
            { path := p, exclusive := exclusive, ownerTaskId := tid,
              createdAt := now })) ∧
        (∀ id, (id == tid) = false →
          claimsView st'.tasks id = claimsView st.tasks id) ∧
        st'.session.activeClaims = some (collectClaims st'.tasks)) := by
  have hcc : ∀ p, checkConflict mm p tid (st.session.activeClaims.getD [])
      (upsertTask st.tasks tid { task with claims := some (task.claims.getD []) }) =
      checkConflict mm p tid (st.session.activeClaims.getD []) st.tasks := by
    intro p
    apply checkConflict_tasks_congr
    rw [lookupTask_upsert_self, htask]
    rfl
  constructor
  · intro hne
    cases hd : claimScope mm hashOracle now ts paths exclusive st with
    | error e =>
      exfalso
      unfold claimScope at hd
      simp only [htid, htask] at hd
      split at hd <;> cases hd
    | ok r =>
      unfold claimScope at hd
      simp only [htid, htask] at hd
      rw [claimFold_eq] at hd
      simp only [hcc, List.nil_append] at hd
      split at hd
      · cases hd
        refine ⟨_, rfl, rfl, rfl, rfl, ?_⟩
        intro id
        unfold claimsView
        cases hq : (id == tid) with
        | true =>
          rw [beq_iff_eq] at hq
          subst hq
          rw [lookupTask_upsert_self, htask]
          simp
        | false =>
          rw [lookupTask_upsert_other _ _ _ _ hq]
      · rename_i hcond
        exfalso
        apply hne
        simp only [Bool.not_eq_true, Bool.not_eq_false'] at hcond
        rwa [List.isEmpty_iff] at hcond
  · intro hpe
    have hfil : paths.filter (fun p => (checkConflict mm p tid
        (st.session.activeClaims.getD []) st.tasks).isNone) = paths := by
      rw [List.filter_eq_self]
      intro p hp
      rw [List.filterMap_eq_nil_iff] at hpe
      rw [hpe p hp]
      rfl
    cases hd : claimScope mm hashOracle now ts paths exclusive st with
    | error e =>
      exfalso
      unfold claimScope at hd
      simp only [htid, htask] at hd
      split at hd <;> cases hd
    | ok r =>
      unfold claimScope at hd
      simp only [htid, htask] at hd
      rw [claimFold_eq] at hd
      simp only [hcc, List.nil_append] at hd
      split at hd
      · rename_i hcond
        exfalso
        rw [hpe] at hcond
        simp at hcond
      · cases hd
        refine ⟨_, rfl, ?_, ?_, ?_⟩
        · unfold claimsView
          simp only [logAction, refreshActiveClaims]
          rw [lookupTask_upsert_self]
          rw [hfil]
          simp
        · intro id hq
          unfold claimsView
          simp only [logAction, refreshActiveClaims]
          rw [lookupTask_upsert_other _ _ _ _ hq, lookupTask_upsert_other _ _ _ _ hq]
        · rfl

/-- C2, witness: with an unrelated task holding an overlapping claim, the
fixture request is rejected with that conflict and the caches are
untouched. -/
theorem c2_claimScope_atomicity_witness :
    ∃ st', claimScope mmEq oracleW 0 "0" ["src/a"] false stConflictW =
        .ok ({ granted := false,
               conflicts := ["src/a"].filterMap (fun p => checkConflict mmEq p "t1"
                 (stConflictW.session.activeClaims.getD []) stConflictW.tasks) }, st') ∧
      st'.session.activeClaims = stConflictW.session.activeClaims ∧
      st'.session.lastKnownFileHashes = stConflictW.session.lastKnownFileHashes := by
  obtain ⟨st', h1, h2, h3, _, _⟩ :=
    (c2_claimScope_atomicity mmEq oracleW 0 "0" ["src/a"] false stConflictW
      "t1" taskW rfl rfl).1 (by decide)
  exact ⟨st', h1, h2, h3⟩

theorem appendLog_drop (logs : List LogEntry) (e : LogEntry) :
    appendLog logs e = (logs ++ [e]).drop ((logs ++ [e]).length - 100) := by
  unfold appendLog
  by_cases h : (logs ++ [e]).length > 100
  · rw [if_pos h]
  · rw [if_neg h]
    have hz : (logs ++ [e]).length - 100 = 0 := by omega
    rw [hz, List.drop_zero]

theorem appendLog_length_le (logs : List LogEntry) (e : LogEntry) :
    (appendLog logs e).length ≤ 100 := by
  rw [appendLog_drop, List.length_drop]
  omega

theorem logAction_length_le (st : DriftGuardState) (ts a : String)
    (t : Option String) (d : Option String) :
    (logAction st ts a t d).logs.length ≤ 100 :=
  appendLog_length_le _ _

/-- C9.  The session log is a bounded queue: appending always retains
exactly the most recent 100 entries (the append result is the 100-entry
suffix of the pushed list and its length never exceeds 100), and every
public operation of the StateManager preserves the 100-entry bound. -/
theorem c9_log_bounded :
    (∀ (logs : List LogEntry) (e : LogEntry),
      appendLog logs e = (logs ++ [e]).drop ((logs ++ [e]).length - 100) ∧
      (appendLog logs e).length ≤ 100) ∧
    (∀ (op : Op) (st : DriftGuardState),
      st.logs.length ≤ 100 → (Op.run op st).logs.length ≤ 100) := by
  refine ⟨fun logs e => ⟨appendLog_drop logs e, appendLog_length_le logs e⟩, ?_⟩
  intro op st h
  cases op with
  | opInitialize a b c d e =>
    simp only [Op.run, initializeOp]
    exact logAction_length_le _ _ _ _ _
  | opHydrate a b =>
    simp only [Op.run]
    cases a with
    | none => exact h
    | some parsed => exact logAction_length_le _ _ _ _ _
  | opProposeTask a b c d e f g =>
    simp only [Op.run]
    cases hr : proposeTask a b c d e f g st with
    | error e2 => exact h
    | ok r =>
      unfold proposeTask at hr
      split at hr
      · cases hr
      · cases hr
        exact logAction_length_le _ _ _ _ _
  | opBeginStep a b c =>
    simp only [Op.run]
    cases hr : beginStep a b c st with
    | error e2 => exact h
    | ok r =>
      unfold beginStep at hr
      split at hr
      · cases hr
      · split at hr
        · cases hr
        · cases hr
          exact logAction_length_le _ _ _ _ _
  | opReportIntent a b c d =>
    simp only [Op.run]
    cases hr : reportIntent a b c d st with
    | error e2 => exact h
    | ok r =>
      unfold reportIntent at hr
      split at hr
      · cases hr
      · split at hr
        · cases hr
        · split at hr
          · cases hr
          · cases hr
            exact logAction_length_le _ _ _ _ _
  | opCheckpoint g ho now summary ids =>
    simp only [Op.run]
    cases hr : checkpoint g ho now summary ids st with
    | error e2 => exact h
    | ok r =>
      unfold checkpoint at hr
      split at hr
      · cases hr
      · split at hr
        · cases hr
        · split at hr
          · cases hr
          · split at hr
            · cases hr
            · cases hr
              exact logAction_length_le _ _ _ _ _
  | opPanic a b =>
    simp only [Op.run]
    exact logAction_length_le _ _ _ _ _
  | opVerify a b =>
    simp only [Op.run]
    cases hr : verify a b st with
    | error e2 => exact h
    | ok r =>
      unfold verify at hr
      split at hr
      · cases hr
      · split at hr
        · cases hr
        · split at hr
          · cases hr
          · cases hr
            exact logAction_length_le _ _ _ _ _
  | opExplainChange a b =>
    simp only [Op.run]
    cases hr : explainChange a b st with
    | error e2 => exact h
    | ok r =>
      unfold explainChange at hr
      split at hr
      · cases hr
      · split at hr
        · cases hr
        · split at hr
          · cases hr
          · cases hr
            exact logAction_length_le _ _ _ _ _
  | opSetTestCommand a b =>
    simp only [Op.run]
    cases hr : setTestCommand a b st with
    | error e2 => exact h
    | ok r =>
      unfold setTestCommand at hr
      split at hr
      · cases hr
      · split at hr
        · cases hr
        · cases hr
          exact logAction_length_le _ _ _ _ _
  | opClaimScope mm ho now ts paths ex =>
    simp only [Op.run]
    cases hr : claimScope mm ho now ts paths ex st with
    | error e2 => exact h
    | ok r =>
      unfold claimScope at hr
      simp only [] at hr
      split at hr
      · cases hr
      · split at hr
        · cases hr
        · split at hr
          · cases hr
            exact h
          · cases hr
            exact logAction_length_le _ _ _ _ _
  | opDelegateTask mm a b c d e =>
    simp only [Op.run]
    cases hr : delegateTask mm a b c d e st with
    | error e2 => exact h
    | ok r =>
      unfold delegateTask at hr
      simp only [] at hr
      split at hr
      · cases hr
      · split at hr
        · cases hr
        · split at hr
          · cases hr
          · split at hr
            · cases hr
            · cases hr
              exact logAction_length_le _ _ _ _ _
  | opAnalyzeRisk a b c =>
    simp only [Op.run]
    cases hx : st.session.activeTaskId with
    | none =>
      simp only [analyzeRisk, hx]
      exact h
    | some tid2 =>
      cases hy : lookupTask st.tasks tid2 with
      | none =>
        simp only [analyzeRisk, hx, hy]
        exact h
      | some t =>
        simp only [analyzeRisk, hx, hy]
        exact h
  | opHealthCheck a b =>
    exact h
  | opReset a b c =>
    simp only [Op.run, resetOp]
    exact logAction_length_le _ _ _ _ _
  | opReadOnly =>
    exact h

/-- C9, witness: the bound-preservation applied to `panic` on the fresh
session. -/
theorem c9_log_bounded_witness :
    (createInitialState "s" 0).logs.length ≤ 100 ∧
    (Op.run (.opPanic "0" "r") (createInitialState "s" 0)).logs.length ≤ 100 :=
  ⟨by decide,
   c9_log_bounded.2 (.opPanic "0" "r") (createInitialState "s" 0) (by decide)⟩

end DriftGuard
